import Mathlib

/-!
Shallow embedding of `submit.py` (runASHS): a tool that reads subject IDs
from the first column of a CSV file, resolves configuration from flags and
the environment, and for each subject matches two MRI input files, renders
a Slurm batch script, and optionally submits it with `sbatch`.

Strings are modelled as Lean `String`/`List Char`.  Python library behaviour
that the script relies on (`str.strip`, `str.split`, `int()`, `str(float)`,
`os.path.join`, `glob.glob`, `pandas.read_csv`, argparse defaults) is
embedded by explicit definitions; each such definition carries a doc comment
stating the fragment of library behaviour it models.  Filesystem state is
abstracted as an `FS` record (path existence and glob results), and the
side effects of the main loop are modelled as an explicit event trace.
-/

namespace RunASHS

/-- Whitespace characters stripped by Python `str.strip()` and by `int()`
(ASCII fragment: space, tab, newline, carriage return, vertical tab,
form feed). -/
def isPySpace (c : Char) : Bool :=
  c = ' ' || c = '\t' || c = '\n' || c = '\r' || c = Char.ofNat 11 || c = Char.ofNat 12

/-- Remove trailing whitespace. -/
def pyStripR (l : List Char) : List Char :=
  (l.reverse.dropWhile isPySpace).reverse

/-- Python `str.strip()`: remove leading and trailing whitespace.
Models line 44 of `submit.py` (`args.time[0].strip()`). -/
def pyStrip (l : List Char) : List Char :=
  pyStripR (l.dropWhile isPySpace)

/-- Python `str.split(sep)` for a one-character separator: split into the
(always nonempty) list of chunks between occurrences of the separator. -/
def splitOnChar (c : Char) : List Char → List (List Char)
  | [] => [[]]
  | a :: rest =>
    if a = c then [] :: splitOnChar c rest
    else
      match splitOnChar c rest with
      | [] => [[a]]
      | s :: ss => (a :: s) :: ss

/-- Prepend a chunk onto the first piece of a split result (proof helper). -/
def consHead (w : List Char) : List (List Char) → List (List Char)
  | [] => [w]
  | s :: ss => (w ++ s) :: ss

/-- Append a chunk onto the last piece of a split result (proof helper). -/
def appendLast (w : List Char) : List (List Char) → List (List Char)
  | [] => [w]
  | [s] => [s ++ w]
  | s :: ss => s :: appendLast w ss

/-- Digit runs accepted by Python `int()` after the optional sign: a
nonempty sequence of ASCII digits in which single underscores may appear
between digits.  The flag records whether the next character is required
to be a digit (at the start and right after an underscore). -/
def pyDigits : Bool → List Char → Bool
  | true, [] => false
  | false, [] => true
  | true, c :: rest => c.isDigit && pyDigits false rest
  | false, c :: rest =>
    if c.isDigit then pyDigits false rest
    else c = '_' && pyDigits true rest

/-- Numeric value of a digit run, ignoring underscores. -/
def digitsVal (l : List Char) : Nat :=
  l.foldl (fun acc c => if c.isDigit then 10 * acc + (c.toNat - 48) else acc) 0

/-- Sign and digits of a Python integer literal (whitespace already
stripped). -/
def pyIntCore : List Char → Option Int
  | '+' :: rest => if pyDigits true rest then some ((digitsVal rest : Int)) else none
  | '-' :: rest => if pyDigits true rest then some (-((digitsVal rest : Int))) else none
  | l => if pyDigits true l then some ((digitsVal l : Int)) else none

/-- Python `int(s)` on a string: strip surrounding whitespace, then an
optional sign followed by digits (with optional single underscores between
digits); `none` models a raised `ValueError`.  ASCII fragment of CPython
behaviour. -/
def pyInt? (l : List Char) : Option Int :=
  pyIntCore (pyStrip l)

/-- The time-format check of lines 45-49 of `submit.py`: split on `:` and
require every segment to parse with `int()`. -/
def timeOk (l : List Char) : Bool :=
  (splitOnChar ':' l).all (fun seg => (pyInt? seg).isSome)

/-- Lines 44-50 of `submit.py`: strip the raw time argument, validate that
every `:`-separated segment parses as an integer, and return the stripped
string; `Except.error` models the raised `IOError`. -/
def resolveTime (raw : String) : Except String String :=
  if timeOk (pyStrip raw.data) then Except.ok (pyStrip raw.data).asString
  else Except.error "It appears that at least one of the hours, minutes, or seconds portions of the time input is incorrect."

/-- An exact decimal number `mant / 10 ^ exp`.  Used to carry the value of
a Python float whose value has a short exact decimal form (such as the
parsed `-mem` argument `4` or `4.25`). -/
structure Dec where
  mant : Int
  exp : Nat
deriving DecidableEq, Repr

/-- Strip trailing zeros of the fractional part of a decimal. -/
def normDec : Int → Nat → Int × Nat
  | m, 0 => (m, 0)
  | m, e + 1 => if m % 10 = 0 then normDec (m / 10) e else (m, e + 1)

/-- Left-pad a string with zeros up to length `k`. -/
def padLeftZeros (s : String) (k : Nat) : String :=
  String.mk (List.replicate (k - s.length) '0') ++ s

/-- Models CPython `str()` on a float in the fixed-notation regime: the
argument `d` is the shortest decimal value that round-trips through the
float (for exactly representable inputs such as `4` or `4.25`, the input
itself), and the result renders it with at least one digit after the
decimal point, so the integer-valued float `4.0` renders as `"4.0"` and
`4.25` renders as `"4.25"`.  The scientific-notation regime of CPython
(magnitude at least 1e16 or below 1e-4) is outside the modelled fragment. -/
def pyFloatStr (d : Dec) : String :=
  let me := normDec d.mant d.exp
  let sign := if me.1 < 0 then "-" else ""
  let n := me.1.natAbs
  if me.2 = 0 then sign ++ toString n ++ ".0"
  else sign ++ toString (n / 10 ^ me.2) ++ "." ++ padLeftZeros (toString (n % 10 ^ me.2)) me.2

/-- A Python runtime value, as far as this script distinguishes them. -/
inductive PyVal where
  | str (s : String)
  | int (n : Int)
  | float (d : Dec)
deriving DecidableEq, Repr

/-- Python `str()` on a `PyVal`. -/
def pyStr : PyVal → String
  | PyVal.str s => s
  | PyVal.int n => toString n
  | PyVal.float d => pyFloatStr d

/-- The value of `args.mem[0]`.  argparse only applies the `type=float`
conversion to a default that is itself a string; the default here is the
list `['4']`, which is not a string, so an omitted `-mem` flag yields the
unconverted string `'4'`, while a passed flag yields the parsed float
(carried as its exact decimal value `d`). -/
def memArgVal : Option Dec → PyVal
  | none => PyVal.str "4"
  | some d => PyVal.float d

/-- Line 42 of `submit.py`: `mem = str(args.mem[0]) + 'G'`. -/
def memString (a : Option Dec) : String :=
  pyStr (memArgVal a) ++ "G"

/-- Line 52 of `submit.py`: a provided email must contain `@`. -/
def emailOk : Option String → Bool
  | none => true
  | some e => e.data.contains '@'

/-- Whether a path string begins with `/` (POSIX absolute path test used
by `os.path.join`). -/
def headIsSlash (s : String) : Bool :=
  match s.data with
  | [] => false
  | c :: _ => c = '/'

/-- Whether a path string ends with `/`. -/
def lastIsSlash (s : String) : Bool :=
  match s.data.getLast? with
  | some c => c = '/'
  | none => false

/-- POSIX `os.path.join(a, b)` for two components: an absolute `b` replaces
`a`; otherwise a `/` separator is inserted unless `a` is empty or already
ends with `/`. -/
def pjoin (a b : String) : String :=
  if headIsSlash b then b
  else if a = "" then b
  else if lastIsSlash a then a ++ b
  else a ++ "/" ++ b

/-- The parsed command-line arguments of `submit.py` (lines 19-30).
`none` in an `Option` field means the flag was omitted.  `mem` carries the
exact decimal value of the parsed float when the flag was passed. -/
structure Args where
  csv : String
  root : Option String
  atlas : String
  data : Option String
  out : Option String
  tidy : Bool
  nProcs : Int
  mem : Option Dec
  time : String
  email : Option String
  noSubmit : Bool

/-- The observable filesystem: path existence (for `os.path.exists`) and
glob results (for `glob.glob`).  Paths given on the command line are
assumed already absolute, so `os.path.abspath` is the identity on them. -/
structure FS where
  pathExists : String → Bool
  glob : String → List String

/-- The resolved configuration (the internal variables assigned in
lines 32-86 of `submit.py`). -/
structure Config where
  subjectsToRunFile : String
  nProcs : Int
  mem : String
  time : String
  email : Option String
  noSubmit : Bool
  ashsRoot : String
  ashsAtlasPath : String
  dataDir : String
  parentOutDir : String
  tidy : Bool
deriving DecidableEq, Repr

/-- Lines 58-66 of `submit.py`: the root directory comes from the flag if
given (checked for existence), else from the `ASHS_ROOT` environment
variable (not checked for existence at this point). -/
def resolveRoot (rootArg : Option String) (env : String → Option String) (fs : FS) :
    Except String String :=
  match rootArg with
  | none =>
    match env "ASHS_ROOT" with
    | some r => Except.ok r
    | none => Except.error "You must either specify the ASHS_ROOT environment variable or use the root option for this script."
  | some r =>
    if fs.pathExists r then Except.ok r
    else Except.error "The root directory that was specified for ASHS does not appear to exist."

/-- Lines 73-76 of `submit.py`: the data directory is the flag value if
given, else `root/data`. -/
def dataDirOf (args : Args) (ashsRoot : String) : String :=
  match args.data with
  | none => pjoin ashsRoot "data"
  | some d => d

/-- Lines 80-83 of `submit.py`: the output parent directory is the flag
value if given, else `root/outputs`. -/
def outDirOf (args : Args) (ashsRoot : String) : String :=
  match args.out with
  | none => pjoin ashsRoot "outputs"
  | some d => d

/-- Lines 68-86 of `submit.py`, after the root is known: check the atlas
path and the data directory, default the output directory, and assemble
the configuration.  `os.makedirs(parentOutDir)` never fails on an existing
directory and is not an observable config-stage effect here. -/
def resolveConfigFrom (args : Args) (fs : FS) (time : String) (ashsRoot : String) :
    Except String Config :=
  if fs.pathExists (pjoin ashsRoot args.atlas) then
    if fs.pathExists (dataDirOf args ashsRoot) then
      Except.ok
        { subjectsToRunFile := args.csv
          nProcs := args.nProcs
          mem := memString args.mem
          time := time
          email := args.email
          noSubmit := args.noSubmit
          ashsRoot := ashsRoot
          ashsAtlasPath := pjoin ashsRoot args.atlas
          dataDir := dataDirOf args ashsRoot
          parentOutDir := outDirOf args ashsRoot
          tidy := args.tidy }
    else Except.error "The specified data directory does not appear to exist."
  else Except.error "The specified ASHS atlas does not appear to exist."

/-- Error propagation: continue with the success value, or keep the
error (the Python exception propagating). -/
def andThenE {α β : Type} (e : Except String α) (f : α → Except String β) :
    Except String β :=
  match e with
  | Except.error m => Except.error m
  | Except.ok a => f a

/-- Lines 32-86 of `submit.py`: validate the command-line arguments in
source order (CSV file, time format, email format, root, atlas, data) and
produce the resolved configuration; `Except.error` models a raised
`IOError`, which aborts the run before any subject is processed. -/
def resolveConfig (args : Args) (env : String → Option String) (fs : FS) :
    Except String Config :=
  if fs.pathExists args.csv then
    andThenE (resolveTime args.time) (fun time =>
      if emailOk args.email then
        andThenE (resolveRoot args.root env fs) (fun ashsRoot =>
          resolveConfigFrom args fs time ashsRoot)
      else Except.error "It appears that the input email address is incorrectly formatted.")
  else Except.error "It appears that the specified CSV file does not exist."

/-- First comma-separated field of a CSV row. -/
def firstField (row : String) : String :=
  ((splitOnChar ',' row.data).headD []).asString

/-- The first-column tokens of the CSV rows; blank lines are skipped
(pandas `skip_blank_lines` default). -/
def csvTokens (rows : List String) : List String :=
  (rows.filter (fun r => r ≠ "")).map firstField

/-- Integer tokens as recognised by the pandas C parser during dtype
inference: an optional sign followed by a nonempty run of ASCII digits. -/
def pandasInt? (t : String) : Option Int :=
  match t.data with
  | [] => none
  | '-' :: rest =>
    if !rest.isEmpty && rest.all Char.isDigit then some (-((digitsVal rest : Int))) else none
  | '+' :: rest =>
    if !rest.isEmpty && rest.all Char.isDigit then some ((digitsVal rest : Int)) else none
  | l => if l.all Char.isDigit then some ((digitsVal l : Int)) else none

/-- Lines 89-90 of `submit.py`:
`pd.read_csv(file, usecols=[0], header=None)` followed by
`list(df.to_numpy().flatten())`.  Models the default dtype inference of
`pandas.read_csv` restricted to the two column shapes this development
needs: a first column whose tokens are all integer literals is returned as
integers (so a token `007` becomes the integer `7`), and any other column
is returned as strings.  (The all-float column shape is not modelled; no
claim depends on it.)  Order and duplicates of the rows are preserved. -/
def readFirstColumn (rows : List String) : List PyVal :=
  let toks := csvTokens rows
  if !toks.isEmpty && toks.all (fun t => (pandasInt? t).isSome) then
    toks.map (fun t => PyVal.int ((pandasInt? t).getD 0))
  else toks.map PyVal.str

/-- Whether a `PyVal` is a Python `str`. -/
def isStrVal : PyVal → Bool
  | PyVal.str _ => true
  | _ => false

/-- One observable side effect of the per-subject loop (lines 96-155):
a directory creation, a blocking acknowledged warning prompt, a file write
(path and full content, opened with mode `w`, i.e. truncating), or a
synchronous scheduler submission (argv and working directory). -/
inductive Event where
  | mkdir (path : String)
  | prompted (subject : String)
  | wrote (path : String) (content : String)
  | submitted (cmd : List String) (cwd : String)
deriving DecidableEq, Repr

/-- Line 99 of `submit.py`: the glob pattern for the 3D gradient echo
file of a subject. -/
def gradPattern (cfg : Config) (subject : String) : String :=
  pjoin cfg.dataDir subject ++ "/MPRAGE_[0-9]*.nii.*"

/-- Line 100 of `submit.py`: the glob pattern for the 2D focal fast spin
echo file of a subject. -/
def focalPattern (cfg : Config) (subject : String) : String :=
  pjoin cfg.dataDir subject ++ "/HighResHippo_[0-9]*.nii.*"

/-- Lines 118-125 of `submit.py`: the command line written into the batch
script. -/
def ashsCmd (cfg : Config) (subject g f outDir : String) : String :=
  "srun " ++ pjoin cfg.ashsRoot "bin/ashs_main.sh" ++ " " ++
  "-a " ++ cfg.ashsAtlasPath ++ " " ++
  "-g " ++ g ++ " " ++
  "-f " ++ f ++ " " ++
  "-w " ++ outDir ++ " " ++
  "-I " ++ subject ++
  (if cfg.tidy then " -T" else "")

/-- Lines 128-150 of `submit.py`: the successive `f.write` fragments of
the batch script, in order. -/
def scriptLines (cfg : Config) (subject g f outDir : String) : List String :=
  ["#!/bin/bash\n", "\n", "#Slurm directives:\n", "\n",
   "#SBATCH -n " ++ toString cfg.nProcs ++ "\n",
   "#SBATCH --mem=" ++ cfg.mem ++ "\n",
   "#SBATCH --time " ++ cfg.time ++ "\n",
   "\n",
   "#SBATCH -J ASHS_" ++ subject ++ "\n",
   "#SBATCH -o ASHS_" ++ subject ++ "-%j.out\n",
   "#SBATCH -e ASHS_" ++ subject ++ "-%j.err\n",
   "\n"] ++
  (match cfg.email with
   | some e =>
     ["#SBATCH --mail-type=FAIL,REQUEUE\n",
      "#SBATCH --mail-user=" ++ e ++ "\n",
      "\n"]
   | none => []) ++
  ["#Commands to run:\n", "\n", ashsCmd cfg subject g f outDir ++ "\n"]

/-- The full text written to the batch script file. -/
def renderScript (cfg : Config) (subject g f outDir : String) : String :=
  String.join (scriptLines cfg subject g f outDir)

/-- One iteration of the loop in lines 96-155 of `submit.py`, as the list
of events it performs in order: if either glob pattern does not match
exactly one file, a blocking warning prompt and nothing else (the subject
is skipped); otherwise create the subject output directory, write the
batch script (truncating any previous content), and, unless `noSubmit`,
run `sbatch` with the script filename from the subject output directory
and wait for it. -/
def processSubject (cfg : Config) (fs : FS) (subject : String) : List Event :=
  let gradientFiles := fs.glob (gradPattern cfg subject)
  let focalFiles := fs.glob (focalPattern cfg subject)
  if gradientFiles.length != 1 || focalFiles.length != 1 then
    [Event.prompted subject]
  else
    let subjectOutDir := pjoin cfg.parentOutDir subject
    let sbatchFileName := "sbatch_" ++ subject ++ ".script"
    let sbatchFilePath := pjoin subjectOutDir sbatchFileName
    [Event.mkdir subjectOutDir,
     Event.wrote sbatchFilePath
       (renderScript cfg subject (gradientFiles.headD "") (focalFiles.headD "") subjectOutDir)] ++
    (if cfg.noSubmit then []
     else [Event.submitted ["sbatch", sbatchFileName] subjectOutDir])

/-- The whole subject loop, strictly sequential. -/
def runSubjects (cfg : Config) (fs : FS) : List String → List Event
  | [] => []
  | s :: rest => processSubject cfg fs s ++ runSubjects cfg fs rest

/-- The whole program: resolve the configuration (any failure aborts
before any subject is processed, with no events), read the subject list,
and run the loop.  When the inferred column is not strings, the first loop
iteration crashes in `os.path.join` with a `TypeError` before emitting any
event; that crash is modelled as the error branch. -/
def runProgram (args : Args) (env : String → Option String) (fs : FS)
    (rows : List String) : Except String (List Event) :=
  match resolveConfig args env fs with
  | Except.error m => Except.error m
  | Except.ok cfg =>
    let vals := readFirstColumn rows
    if vals.all isStrVal then Except.ok (runSubjects cfg fs (vals.map pyStr))
    else Except.error "TypeError: join argument must be str"

/-- The file writes of an event trace, in order (path and content). -/
def writesOf (es : List Event) : List (String × String) :=
  es.filterMap (fun e => match e with
    | Event.wrote p c => some (p, c)
    | _ => none)

/-- The scheduler submissions of an event trace, in order (argv and
working directory). -/
def submitsOf (es : List Event) : List (List String × String) :=
  es.filterMap (fun e => match e with
    | Event.submitted cmd cwd => some (cmd, cwd)
    | _ => none)

/-- A file store: contents by path. -/
abbrev Store := String → Option String

/-- Apply one event to a file store; only writes change it, and a write
replaces the full previous content (file opened with mode `w`). -/
def applyEvent (st : Store) : Event → Store
  | Event.wrote p c => fun q => if q = p then some c else st q
  | _ => st

/-- Apply an event trace to a file store, in order. -/
def applyEvents (st : Store) : List Event → Store
  | [] => st
  | e :: es => applyEvents (applyEvent st e) es

/-- The content an event writes at path `p`, if any. -/
def writeAt (e : Event) (p : String) : Option String :=
  match e with
  | Event.wrote q c => if p = q then some c else none
  | _ => none

/-- The content of the last write at path `p` in a trace, if any. -/
def lastWriteIn (es : List Event) (p : String) : Option String :=
  match es with
  | [] => none
  | e :: rest =>
    match lastWriteIn rest p with
    | some c => some c
    | none => writeAt e p

/-- Left-biased choice on optional file contents (proof helper). -/
def orO (a b : Option String) : Option String :=
  match a with
  | some c => some c
  | none => b

/-- Whether an `Except` value is a success. -/
def isOkB : Except String α → Bool
  | Except.ok _ => true
  | Except.error _ => false

/-- Number of digits after the decimal point of a rendered number. -/
def decimalPlaces (s : String) : Nat :=
  match splitOnChar '.' s.data with
  | [_, frac] => frac.length
  | _ => 0

/-- A concrete resolved configuration used by witnesses. -/
def cfg0 : Config :=
  { subjectsToRunFile := "/subs.csv"
    nProcs := 1
    mem := memString none
    time := "04:00:00"
    email := none
    noSubmit := false
    ashsRoot := "/ashs"
    ashsAtlasPath := "/ashs/atlas"
    dataDir := "/ashs/data"
    parentOutDir := "/ashs/outputs"
    tidy := false }

/-- `cfg0` with the no-submit flag set. -/
def cfg1 : Config :=
  { cfg0 with noSubmit := true }

/-- A concrete filesystem used by witnesses: subject `S1` has exactly one
file per pattern. -/
def fs0 : FS :=
  { pathExists := fun p =>
      p == "/" || p == "/subs.csv" || p == "/atlas" || p == "/data" || p == "/out" ||
      p == "/ashs" || p == "/ashs/atlas" || p == "/ashs/data"
    glob := fun p =>
      if p == "/ashs/data/S1/MPRAGE_[0-9]*.nii.*" then ["/ashs/data/S1/MPRAGE_001.nii.gz"]
      else if p == "/ashs/data/S1/HighResHippo_[0-9]*.nii.*" then
        ["/ashs/data/S1/HighResHippo_001.nii.gz"]
      else [] }

/-- A concrete filesystem with no glob matches at all. -/
def fsNone : FS :=
  { pathExists := fun _ => true
    glob := fun _ => [] }

/-- A concrete environment with `ASHS_ROOT` set to a nonexistent path. -/
def env0 : String → Option String :=
  fun k => if k == "ASHS_ROOT" then some "/gone" else none

/-- Concrete well-formed arguments used by witnesses. -/
def argsOk : Args :=
  { csv := "/subs.csv"
    root := some "/ashs"
    atlas := "atlas"
    data := none
    out := none
    tidy := false
    nProcs := 1
    mem := none
    time := "04:00:00"
    email := none
    noSubmit := false }

/-- `argsOk` with a malformed time argument. -/
def args6 : Args :=
  { argsOk with time := "4:0a:00" }

/-- `argsOk` with an explicit nonexistent root flag. -/
def args7 : Args :=
  { argsOk with root := some "/gone" }

/-- Arguments with no root flag, an absolute atlas path and explicit data
and output directories: the root then comes from the environment and is
never existence-checked. -/
def args7b : Args :=
  { csv := "/subs.csv"
    root := none
    atlas := "/atlas"
    data := some "/data"
    out := some "/out"
    tidy := false
    nProcs := 1
    mem := none
    time := "04:00:00"
    email := none
    noSubmit := true }

theorem splitOnChar_cons (c a : Char) (rest : List Char) :
    splitOnChar c (a :: rest) =
      if a = c then [] :: splitOnChar c rest
      else match splitOnChar c rest with
        | [] => [[a]]
        | s :: ss => (a :: s) :: ss := rfl

theorem consHead_cons (w s : List Char) (ss : List (List Char)) :
    consHead w (s :: ss) = (w ++ s) :: ss := rfl

theorem appendLast_single (w s : List Char) : appendLast w [s] = [s ++ w] := rfl

theorem appendLast_cons2 (w s s' : List Char) (ss : List (List Char)) :
    appendLast w (s :: s' :: ss) = s :: appendLast w (s' :: ss) := rfl

theorem isPySpace_ne_colon {c : Char} (h : isPySpace c = true) : ¬ c = ':' := by
  intro h'
  subst h'
  revert h
  decide

theorem dropWhile_sp_prepend (w l : List Char) (hw : ∀ c ∈ w, isPySpace c = true) :
    (w ++ l).dropWhile isPySpace = l.dropWhile isPySpace := by
  induction w with
  | nil => rfl
  | cons a w ih =>
    have ha : isPySpace a = true := hw a (List.mem_cons_self a w)
    have ih' := ih (fun c hc => hw c (List.mem_cons_of_mem a hc))
    simp [List.cons_append, List.dropWhile_cons, ha, ih']

theorem dropWhile_sp_all (w : List Char) (hw : ∀ c ∈ w, isPySpace c = true) :
    w.dropWhile isPySpace = [] := by
  have h := dropWhile_sp_prepend w [] hw
  simpa using h

theorem dropWhile_head_false {p : Char → Bool} {l t : List Char} {c : Char}
    (h : l.dropWhile p = c :: t) : p c = false := by
  induction l with
  | nil => simp [List.dropWhile] at h
  | cons a l ih =>
    rw [List.dropWhile_cons] at h
    by_cases hp : p a = true
    · rw [if_pos hp] at h
      exact ih h
    · rw [if_neg hp] at h
      cases h
      simpa using hp

theorem all_sp_of_dropWhile_nil {l : List Char} (hd : l.dropWhile isPySpace = []) :
    ∀ c ∈ l, isPySpace c = true := by
  intro c hc
  have hsplit : l.takeWhile isPySpace ++ l.dropWhile isPySpace = l :=
    List.takeWhile_append_dropWhile isPySpace l
  rw [hd, List.append_nil] at hsplit
  rw [← hsplit] at hc
  exact List.mem_takeWhile_imp hc

theorem pyStripR_append (x w : List Char) (hw : ∀ c ∈ w, isPySpace c = true) :
    pyStripR (x ++ w) = pyStripR x := by
  unfold pyStripR
  rw [List.reverse_append, dropWhile_sp_prepend _ _
    (fun a ha => hw a (List.mem_reverse.mp ha))]

theorem pyStrip_prepend (w l : List Char) (hw : ∀ c ∈ w, isPySpace c = true) :
    pyStrip (w ++ l) = pyStrip l := by
  unfold pyStrip
  rw [dropWhile_sp_prepend w l hw]

theorem dropWhile_sp_append_eq (l w : List Char) (hw : ∀ c ∈ w, isPySpace c = true) :
    (l ++ w).dropWhile isPySpace = l.dropWhile isPySpace ++
      (if l.dropWhile isPySpace = [] then [] else w) := by
  cases hd : l.dropWhile isPySpace with
  | nil =>
    rw [if_pos rfl, List.append_nil]
    apply dropWhile_sp_all
    intro c hc
    rcases List.mem_append.mp hc with h | h
    · exact all_sp_of_dropWhile_nil hd c h
    · exact hw c h
  | cons c t =>
    rw [if_neg (by simp)]
    have hc : isPySpace c = false := dropWhile_head_false hd
    have hsplit : l.takeWhile isPySpace ++ l.dropWhile isPySpace = l :=
      List.takeWhile_append_dropWhile isPySpace l
    have hrw : l ++ w = l.takeWhile isPySpace ++ (c :: (t ++ w)) := by
      conv_lhs => rw [← hsplit, hd]
      simp
    rw [hrw, dropWhile_sp_prepend _ _ (fun a ha => List.mem_takeWhile_imp ha),
      List.dropWhile_cons, hc]
    simp

theorem pyStrip_append (l w : List Char) (hw : ∀ c ∈ w, isPySpace c = true) :
    pyStrip (l ++ w) = pyStrip l := by
  unfold pyStrip
  rw [dropWhile_sp_append_eq l w hw]
  by_cases hd : l.dropWhile isPySpace = []
  · rw [if_pos hd, List.append_nil]
  · rw [if_neg hd, pyStripR_append _ _ hw]

theorem split_never_nil (c : Char) (l : List Char) : splitOnChar c l ≠ [] := by
  induction l with
  | nil => simp [splitOnChar]
  | cons a l ih =>
    rw [splitOnChar_cons]
    by_cases h : a = c
    · simp [h]
    · rw [if_neg h]
      cases hs : splitOnChar c l with
      | nil => simp
      | cons s ss => simp

theorem split_no_sep (c : Char) (w : List Char) (hw : ∀ a ∈ w, ¬ a = c) :
    splitOnChar c w = [w] := by
  induction w with
  | nil => rfl
  | cons a w ih =>
    have ha : ¬ a = c := hw a (List.mem_cons_self a w)
    have ih' := ih (fun b hb => hw b (List.mem_cons_of_mem a hb))
    rw [splitOnChar_cons, if_neg ha, ih']

theorem split_prepend (c : Char) (w l : List Char) (hw : ∀ a ∈ w, ¬ a = c) :
    splitOnChar c (w ++ l) = consHead w (splitOnChar c l) := by
  induction w with
  | nil =>
    cases hs : splitOnChar c l with
    | nil => exact absurd hs (split_never_nil c l)
    | cons s ss => rw [List.nil_append, hs, consHead_cons, List.nil_append]
  | cons a w ih =>
    have ha : ¬ a = c := hw a (List.mem_cons_self a w)
    have ih' := ih (fun b hb => hw b (List.mem_cons_of_mem a hb))
    cases hs : splitOnChar c l with
    | nil => exact absurd hs (split_never_nil c l)
    | cons s ss =>
      rw [hs, consHead_cons] at ih'
      rw [List.cons_append, splitOnChar_cons, if_neg ha, ih']
      simp [consHead_cons]

theorem split_append (c : Char) (l w : List Char) (hw : ∀ a ∈ w, ¬ a = c) :
    splitOnChar c (l ++ w) = appendLast w (splitOnChar c l) := by
  induction l with
  | nil =>
    rw [List.nil_append, split_no_sep c w hw]
    rfl
  | cons a l ih =>
    by_cases ha : a = c
    · cases hs : splitOnChar c l with
      | nil => exact absurd hs (split_never_nil c l)
      | cons s ss =>
        rw [hs] at ih
        rw [List.cons_append, splitOnChar_cons, if_pos ha, ih, splitOnChar_cons,
          if_pos ha, hs, appendLast_cons2]
    · cases hs : splitOnChar c l with
      | nil => exact absurd hs (split_never_nil c l)
      | cons s ss =>
        rw [hs] at ih
        cases ss with
        | nil =>
          rw [List.cons_append, splitOnChar_cons, if_neg ha, ih, appendLast_single,
            splitOnChar_cons, if_neg ha, hs]
          simp [appendLast_single]
        | cons s' ss' =>
          rw [List.cons_append, splitOnChar_cons, if_neg ha, ih, appendLast_cons2,
            splitOnChar_cons, if_neg ha, hs]
          simp [appendLast_cons2]

theorem pyInt?_prepend (w s : List Char) (hw : ∀ c ∈ w, isPySpace c = true) :
    pyInt? (w ++ s) = pyInt? s := by
  unfold pyInt?
  rw [pyStrip_prepend w s hw]

theorem pyInt?_append (s w : List Char) (hw : ∀ c ∈ w, isPySpace c = true) :
    pyInt? (s ++ w) = pyInt? s := by
  unfold pyInt?
  rw [pyStrip_append s w hw]

theorem timeOk_prepend (w l : List Char) (hw : ∀ c ∈ w, isPySpace c = true) :
    timeOk (w ++ l) = timeOk l := by
  unfold timeOk
  rw [split_prepend ':' w l (fun a ha => isPySpace_ne_colon (hw a ha))]
  cases hs : splitOnChar ':' l with
  | nil => exact absurd hs (split_never_nil ':' l)
  | cons s ss =>
    simp only [consHead, List.all_cons]
    rw [pyInt?_prepend w s hw]

theorem all_appendLast (w : List Char) (hw : ∀ c ∈ w, isPySpace c = true) :
    ∀ (ss : List (List Char)) (s : List Char),
      (appendLast w (s :: ss)).all (fun seg => (pyInt? seg).isSome) =
        (s :: ss).all (fun seg => (pyInt? seg).isSome) := by
  intro ss
  induction ss with
  | nil =>
    intro s
    rw [appendLast_single]
    simp only [List.all_cons, List.all_nil]
    rw [pyInt?_append s w hw]
  | cons s' ss' ih =>
    intro s
    rw [appendLast_cons2]
    simp only [List.all_cons]
    rw [ih s']
    simp [List.all_cons]

theorem timeOk_append (l w : List Char) (hw : ∀ c ∈ w, isPySpace c = true) :
    timeOk (l ++ w) = timeOk l := by
  unfold timeOk
  rw [split_append ':' l w (fun a ha => isPySpace_ne_colon (hw a ha))]
  cases hs : splitOnChar ':' l with
  | nil => exact absurd hs (split_never_nil ':' l)
  | cons s ss => exact all_appendLast w hw ss s

theorem pyStripR_decomp (x : List Char) :
    x = pyStripR x ++ (x.reverse.takeWhile isPySpace).reverse := by
  unfold pyStripR
  conv_lhs =>
    rw [← List.reverse_reverse x,
      ← List.takeWhile_append_dropWhile isPySpace x.reverse]
  rw [List.reverse_append]

theorem timeOk_strip (l : List Char) : timeOk (pyStrip l) = timeOk l := by
  have h1 : timeOk l = timeOk (l.dropWhile isPySpace) := by
    conv_lhs =>
      rw [← List.takeWhile_append_dropWhile isPySpace l]
    exact timeOk_prepend _ _ (fun a ha => List.mem_takeWhile_imp ha)
  rw [h1]
  conv_rhs => rw [pyStripR_decomp (l.dropWhile isPySpace)]
  rw [timeOk_append (pyStripR (l.dropWhile isPySpace)) _ (fun a ha =>
    List.mem_takeWhile_imp (List.mem_reverse.mp ha))]
  rfl

theorem pyStrip_surround (w1 w2 l : List Char)
    (h1 : ∀ c ∈ w1, isPySpace c = true) (h2 : ∀ c ∈ w2, isPySpace c = true) :
    pyStrip (w1 ++ l ++ w2) = pyStrip l := by
  rw [List.append_assoc, pyStrip_prepend _ _ h1, pyStrip_append _ _ h2]

theorem resolveTime_surround (raw : String) (w1 w2 : List Char)
    (h1 : ∀ c ∈ w1, isPySpace c = true) (h2 : ∀ c ∈ w2, isPySpace c = true) :
    resolveTime (w1.asString ++ raw ++ w2.asString) = resolveTime raw := by
  unfold resolveTime
  have hd : (w1.asString ++ raw ++ w2.asString).data = w1 ++ raw.data ++ w2 := rfl
  rw [hd, pyStrip_surround w1 w2 raw.data h1 h2]

theorem resolveTime_ok_eq {raw t : String} (h : resolveTime raw = Except.ok t) :
    t = (pyStrip raw.data).asString := by
  unfold resolveTime at h
  by_cases hok : timeOk (pyStrip raw.data) = true
  · simp only [hok, if_true] at h
    cases h
    rfl
  · simp only [Bool.not_eq_true] at hok
    simp only [hok] at h
    cases h

theorem resolveTime_isOk (raw : String) :
    isOkB (resolveTime raw) = timeOk raw.data := by
  unfold resolveTime
  rw [← timeOk_strip raw.data]
  cases h : timeOk (pyStrip raw.data) with
  | true => simp [h, isOkB]
  | false => simp [h, isOkB]

theorem isOkB_false {e : Except String α} (h : isOkB e = false) :
    ∃ m, e = Except.error m := by
  cases e with
  | ok a => simp [isOkB] at h
  | error m => exact ⟨m, rfl⟩

theorem resolveConfigFrom_ok_time {args : Args} {fs : FS} {time ashsRoot : String}
    {cfg : Config} (h : resolveConfigFrom args fs time ashsRoot = Except.ok cfg) :
    cfg.time = time := by
  unfold resolveConfigFrom at h
  by_cases h1 : fs.pathExists (pjoin ashsRoot args.atlas) = true
  · rw [if_pos h1] at h
    by_cases h2 : fs.pathExists (dataDirOf args ashsRoot) = true
    · rw [if_pos h2] at h
      cases h
      rfl
    · rw [if_neg h2] at h
      cases h
  · rw [if_neg h1] at h
    cases h

theorem andThenE_ok {α β : Type} (a : α) (f : α → Except String β) :
    andThenE (Except.ok a) f = f a := rfl

theorem andThenE_error {α β : Type} (m : String) (f : α → Except String β) :
    andThenE (Except.error m) f = Except.error m := rfl

theorem resolveConfig_ok_time {args : Args} {env : String → Option String} {fs : FS}
    {cfg : Config} (h : resolveConfig args env fs = Except.ok cfg) :
    cfg.time = (pyStrip args.time.data).asString := by
  unfold resolveConfig at h
  by_cases hcsv : fs.pathExists args.csv = true
  · rw [if_pos hcsv] at h
    cases hrt : resolveTime args.time with
    | error m =>
      rw [hrt, andThenE_error] at h
      exact Except.noConfusion h
    | ok t =>
      rw [hrt] at h
      simp only [andThenE_ok] at h
      by_cases hem : emailOk args.email = true
      · rw [if_pos hem] at h
        cases hro : resolveRoot args.root env fs with
        | error m =>
          rw [hro, andThenE_error] at h
          exact Except.noConfusion h
        | ok root =>
          rw [hro] at h
          simp only [andThenE_ok] at h
          rw [resolveConfigFrom_ok_time h, resolveTime_ok_eq hrt]
      · rw [if_neg hem] at h
        exact Except.noConfusion h
  · rw [if_neg hcsv] at h
    exact Except.noConfusion h

theorem resolveConfig_err_of_time (args : Args) (env : String → Option String) (fs : FS)
    (hb : timeOk args.time.data = false) :
    ∃ m, resolveConfig args env fs = Except.error m := by
  unfold resolveConfig
  by_cases hcsv : fs.pathExists args.csv = true
  · rw [if_pos hcsv]
    have hrtE : ∃ m, resolveTime args.time = Except.error m := by
      apply isOkB_false
      rw [resolveTime_isOk args.time, hb]
    obtain ⟨m, hm⟩ := hrtE
    rw [hm, andThenE_error]
    exact ⟨m, rfl⟩
  · rw [if_neg hcsv]
    exact ⟨_, rfl⟩

theorem resolveConfig_err_of_root (args : Args) (env : String → Option String) (fs : FS)
    (hroot : ∃ m, resolveRoot args.root env fs = Except.error m) :
    ∃ m, resolveConfig args env fs = Except.error m := by
  unfold resolveConfig
  by_cases hcsv : fs.pathExists args.csv = true
  · rw [if_pos hcsv]
    cases hrt : resolveTime args.time with
    | error m => exact ⟨m, rfl⟩
    | ok t =>
      simp only [andThenE_ok]
      by_cases hem : emailOk args.email = true
      · rw [if_pos hem]
        obtain ⟨m, hm⟩ := hroot
        rw [hm, andThenE_error]
        exact ⟨m, rfl⟩
      · rw [if_neg hem]
        exact ⟨_, rfl⟩
  · rw [if_neg hcsv]
    exact ⟨_, rfl⟩

theorem resolveConfig_err_of_atlas (args : Args) (env : String → Option String) (fs : FS)
    (root : String) (hr : resolveRoot args.root env fs = Except.ok root)
    (hatlas : fs.pathExists (pjoin root args.atlas) = false) :
    ∃ m, resolveConfig args env fs = Except.error m := by
  unfold resolveConfig
  by_cases hcsv : fs.pathExists args.csv = true
  · rw [if_pos hcsv]
    cases hrt : resolveTime args.time with
    | error m => exact ⟨m, rfl⟩
    | ok t =>
      simp only [andThenE_ok]
      by_cases hem : emailOk args.email = true
      · rw [if_pos hem, hr, andThenE_ok]
        unfold resolveConfigFrom
        rw [hatlas]
        exact ⟨_, if_neg (by simp)⟩
      · rw [if_neg hem]
        exact ⟨_, rfl⟩
  · rw [if_neg hcsv]
    exact ⟨_, rfl⟩

theorem resolveRoot_some_eq (r : String) (env : String → Option String) (fs : FS) :
    resolveRoot (some r) env fs =
      if fs.pathExists r = true then Except.ok r
      else Except.error "The root directory that was specified for ASHS does not appear to exist." :=
  rfl

theorem resolveRoot_none_eq (env : String → Option String) (fs : FS) :
    resolveRoot none env fs =
      match env "ASHS_ROOT" with
      | some r => Except.ok r
      | none => Except.error "You must either specify the ASHS_ROOT environment variable or use the root option for this script." :=
  rfl

theorem resolveConfig_time_congr (args : Args) (env : String → Option String) (fs : FS)
    (t' : String) (ht : resolveTime t' = resolveTime args.time) :
    resolveConfig { args with time := t' } env fs = resolveConfig args env fs := by
  unfold resolveConfig
  have ht' : resolveTime ({ args with time := t' } : Args).time = resolveTime args.time := ht
  rw [ht']
  rfl

/-- Claim C6: for every time-limit string, the time resolver succeeds iff
splitting the raw string on `:` yields segments that all parse as Python
integers; and when that fails, the whole run aborts with an error before
any subject is processed (no events). -/
theorem claim_c6 (args : Args) (env : String → Option String) (fs : FS)
    (rows : List String) :
    isOkB (resolveTime args.time) = timeOk args.time.data
    ∧ (∀ cfg, resolveConfig args env fs = Except.ok cfg → timeOk args.time.data = true)
    ∧ (timeOk args.time.data = false →
        ∃ m, runProgram args env fs rows = Except.error m) := by
  refine ⟨resolveTime_isOk args.time, ?_, ?_⟩
  · intro cfg hok
    cases hb : timeOk args.time.data with
    | true => rfl
    | false =>
      obtain ⟨m, hm⟩ := resolveConfig_err_of_time args env fs hb
      rw [hm] at hok
      cases hok
  · intro hb
    obtain ⟨m, hm⟩ := resolveConfig_err_of_time args env fs hb
    refine ⟨m, ?_⟩
    unfold runProgram
    rw [hm]

/-- Witness for claim C6 at a concrete malformed time string. -/
theorem claim_c6_witness :
    isOkB (resolveTime args6.time) = timeOk args6.time.data
    ∧ (∃ m, runProgram args6 env0 fs0 ["S1"] = Except.error m) :=
  ⟨(claim_c6 args6 env0 fs0 ["S1"]).1,
   (claim_c6 args6 env0 fs0 ["S1"]).2.2 (by decide)⟩

/-- Counterexample to claim C7: with no root flag, `ASHS_ROOT` set to a
nonexistent path, an absolute atlas path and explicit existing data and
output directories, configuration resolution succeeds even though the
resolved root path does not exist. -/
theorem claim_c7_counterexample :
    fs0.pathExists "/gone" = false
    ∧ env0 "ASHS_ROOT" = some "/gone"
    ∧ args7b.root = none
    ∧ isOkB (resolveConfig args7b env0 fs0) = true := by
  refine ⟨by decide, rfl, rfl, ?_⟩
  decide

/-- Claim C7 (amended): resolution fails when neither the root flag nor the
environment variable is present, and when a flag-supplied root does not
exist; a nonexistent environment-supplied root is not itself checked, but
on a parent-closed filesystem it makes the root-relative atlas check (and
hence resolution) fail whenever the atlas name is a relative path. -/
theorem claim_c7 (args : Args) (env : String → Option String) (fs : FS) :
    (args.root = none → env "ASHS_ROOT" = none →
      ∃ m, resolveConfig args env fs = Except.error m)
    ∧ (∀ r, args.root = some r → fs.pathExists r = false →
        ∃ m, resolveConfig args env fs = Except.error m)
    ∧ (∀ r, args.root = none → env "ASHS_ROOT" = some r → fs.pathExists r = false →
        headIsSlash args.atlas = false → ¬ r = "" → lastIsSlash r = false →
        (∀ a b, fs.pathExists (a ++ "/" ++ b) = true → fs.pathExists a = true) →
        ∃ m, resolveConfig args env fs = Except.error m) := by
  refine ⟨?_, ?_, ?_⟩
  · intro h1 h2
    apply resolveConfig_err_of_root
    rw [h1, resolveRoot_none_eq, h2]
    exact ⟨_, rfl⟩
  · intro r h1 h2
    apply resolveConfig_err_of_root
    rw [h1, resolveRoot_some_eq, if_neg (by simp [h2])]
    exact ⟨_, rfl⟩
  · intro r h1 h2 h3 hrel hne hsl hclosed
    apply resolveConfig_err_of_atlas args env fs r
    · rw [h1, resolveRoot_none_eq, h2]
    · have hpj : pjoin r args.atlas = r ++ "/" ++ args.atlas := by
        unfold pjoin
        rw [if_neg (by simp [hrel]), if_neg hne, if_neg (by simp [hsl])]
      rw [hpj]
      cases hpe : fs.pathExists (r ++ "/" ++ args.atlas) with
      | false => rfl
      | true =>
        have := hclosed r args.atlas hpe
        rw [h3] at this
        cases this

/-- Witness for claim C7 at a concrete flag-supplied nonexistent root. -/
theorem claim_c7_witness :
    fs0.pathExists "/gone" = false
    ∧ (∃ m, resolveConfig args7 env0 fs0 = Except.error m) :=
  ⟨by decide, (claim_c7 args7 env0 fs0).2.1 "/gone" rfl (by decide)⟩

/-- Claim C9: the time argument is stripped of surrounding whitespace
before validation, the stripped string is what a successful resolution
stores (and hence embeds in the script's time directive), and padding the
time argument with whitespace leaves the resolved configuration — and so
every generated script — unchanged. -/
theorem claim_c9 (args : Args) (env : String → Option String) (fs : FS)
    (w1 w2 : List Char) (h1 : ∀ c ∈ w1, isPySpace c = true)
    (h2 : ∀ c ∈ w2, isPySpace c = true) :
    resolveConfig { args with time := w1.asString ++ args.time ++ w2.asString } env fs =
      resolveConfig args env fs
    ∧ ∀ cfg, resolveConfig args env fs = Except.ok cfg →
        cfg.time = (pyStrip args.time.data).asString := by
  constructor
  · exact resolveConfig_time_congr args env fs _
      (resolveTime_surround args.time w1 w2 h1 h2)
  · intro cfg h
    exact resolveConfig_ok_time h

/-- Witness for claim C9 at concrete whitespace padding. -/
theorem claim_c9_witness :
    resolveConfig { argsOk with
        time := (List.asString [' ']) ++ argsOk.time ++ (List.asString ['\t']) } env0 fs0 =
      resolveConfig argsOk env0 fs0
    ∧ ∀ cfg, resolveConfig argsOk env0 fs0 = Except.ok cfg →
        cfg.time = (pyStrip argsOk.time.data).asString :=
  claim_c9 argsOk env0 fs0 [' '] ['\t'] (by decide) (by decide)

theorem runSubjects_cons (cfg : Config) (fs : FS) (s : String) (rest : List String) :
    runSubjects cfg fs (s :: rest) = processSubject cfg fs s ++ runSubjects cfg fs rest :=
  rfl

theorem writesOf_append (es1 es2 : List Event) :
    writesOf (es1 ++ es2) = writesOf es1 ++ writesOf es2 :=
  List.filterMap_append es1 es2 _

theorem submitsOf_append (es1 es2 : List Event) :
    submitsOf (es1 ++ es2) = submitsOf es1 ++ submitsOf es2 :=
  List.filterMap_append es1 es2 _

theorem processSubject_valid (cfg : Config) (fs : FS) (subject : String)
    (hg : (fs.glob (gradPattern cfg subject)).length = 1)
    (hf : (fs.glob (focalPattern cfg subject)).length = 1) :
    processSubject cfg fs subject =
      [Event.mkdir (pjoin cfg.parentOutDir subject),
       Event.wrote (pjoin (pjoin cfg.parentOutDir subject) ("sbatch_" ++ subject ++ ".script"))
         (renderScript cfg subject ((fs.glob (gradPattern cfg subject)).headD "")
           ((fs.glob (focalPattern cfg subject)).headD "") (pjoin cfg.parentOutDir subject))] ++
      (if cfg.noSubmit then []
       else [Event.submitted ["sbatch", "sbatch_" ++ subject ++ ".script"]
         (pjoin cfg.parentOutDir subject)]) := by
  simp only [processSubject]
  rw [hg, hf]
  simp

theorem processSubject_invalid (cfg : Config) (fs : FS) (subject : String)
    (h : ¬ (fs.glob (gradPattern cfg subject)).length = 1
      ∨ ¬ (fs.glob (focalPattern cfg subject)).length = 1) :
    processSubject cfg fs subject = [Event.prompted subject] := by
  simp only [processSubject]
  have hc : ((fs.glob (gradPattern cfg subject)).length != 1
      || (fs.glob (focalPattern cfg subject)).length != 1) = true := by
    rcases h with h | h
    · simp only [Bool.or_eq_true, bne_iff_ne]
      exact Or.inl h
    · simp only [Bool.or_eq_true, bne_iff_ne]
      exact Or.inr h
  rw [hc]
  simp

/-- Claim C1: for a subject whose data subdirectory has exactly one glob
match per required pattern, the loop body writes exactly one file — the
batch script, inside that subject's output directory — and, when the
no-submit flag is not set, performs exactly one (synchronous) `sbatch`
submission for that subject, with the subject's output directory as the
working directory. -/
theorem claim_c1 (cfg : Config) (fs : FS) (subject : String)
    (hg : (fs.glob (gradPattern cfg subject)).length = 1)
    (hf : (fs.glob (focalPattern cfg subject)).length = 1) :
    writesOf (processSubject cfg fs subject) =
      [(pjoin (pjoin cfg.parentOutDir subject) ("sbatch_" ++ subject ++ ".script"),
        renderScript cfg subject ((fs.glob (gradPattern cfg subject)).headD "")
          ((fs.glob (focalPattern cfg subject)).headD "") (pjoin cfg.parentOutDir subject))]
    ∧ (cfg.noSubmit = false →
        submitsOf (processSubject cfg fs subject) =
          [(["sbatch", "sbatch_" ++ subject ++ ".script"], pjoin cfg.parentOutDir subject)]) := by
  constructor
  · rw [processSubject_valid cfg fs subject hg hf, writesOf_append]
    cases hns : cfg.noSubmit <;> simp [writesOf, List.filterMap]
  · intro hns
    rw [processSubject_valid cfg fs subject hg hf, hns, submitsOf_append]
    simp [submitsOf, List.filterMap]

/-- Witness for claim C1 at a concrete subject with unique matches. -/
theorem claim_c1_witness :
    (fs0.glob (gradPattern cfg0 "S1")).length = 1
    ∧ (fs0.glob (focalPattern cfg0 "S1")).length = 1
    ∧ writesOf (processSubject cfg0 fs0 "S1") =
        [(pjoin (pjoin cfg0.parentOutDir "S1") ("sbatch_" ++ "S1" ++ ".script"),
          renderScript cfg0 "S1" ((fs0.glob (gradPattern cfg0 "S1")).headD "")
            ((fs0.glob (focalPattern cfg0 "S1")).headD "") (pjoin cfg0.parentOutDir "S1"))]
    ∧ submitsOf (processSubject cfg0 fs0 "S1") =
        [(["sbatch", "sbatch_" ++ "S1" ++ ".script"], pjoin cfg0.parentOutDir "S1")] :=
  ⟨by decide, by decide,
   (claim_c1 cfg0 fs0 "S1" (by decide) (by decide)).1,
   (claim_c1 cfg0 fs0 "S1" (by decide) (by decide)).2 (by decide)⟩

/-- Claim C2: for a subject for which either pattern matches zero files or
more than one file, the loop body performs only the blocking acknowledged
warning prompt — no script is written — and the run continues with the
remaining subjects rather than aborting. -/
theorem claim_c2 (cfg : Config) (fs : FS) (subject : String) (rest : List String)
    (h : ¬ (fs.glob (gradPattern cfg subject)).length = 1
      ∨ ¬ (fs.glob (focalPattern cfg subject)).length = 1) :
    processSubject cfg fs subject = [Event.prompted subject]
    ∧ writesOf (processSubject cfg fs subject) = []
    ∧ runSubjects cfg fs (subject :: rest) =
        Event.prompted subject :: runSubjects cfg fs rest := by
  have h1 := processSubject_invalid cfg fs subject h
  refine ⟨h1, ?_, ?_⟩
  · rw [h1]
    simp [writesOf, List.filterMap]
  · rw [runSubjects_cons, h1]
    rfl

/-- Witness for claim C2 at a concrete subject with no matches. -/
theorem claim_c2_witness :
    processSubject cfg0 fsNone "S1" = [Event.prompted "S1"]
    ∧ writesOf (processSubject cfg0 fsNone "S1") = []
    ∧ runSubjects cfg0 fsNone ["S1", "S2"] =
        Event.prompted "S1" :: runSubjects cfg0 fsNone ["S2"] :=
  claim_c2 cfg0 fsNone "S1" ["S2"] (Or.inl (by decide))

theorem submitsOf_processSubject_nosubmit (cfg : Config) (fs : FS) (s : String)
    (h : cfg.noSubmit = true) : submitsOf (processSubject cfg fs s) = [] := by
  by_cases hc : (fs.glob (gradPattern cfg s)).length = 1
      ∧ (fs.glob (focalPattern cfg s)).length = 1
  · rw [processSubject_valid cfg fs s hc.1 hc.2, h, submitsOf_append]
    simp [submitsOf, List.filterMap]
  · rw [processSubject_invalid cfg fs s (by tauto)]
    simp [submitsOf, List.filterMap]

theorem wrote_mem_runSubjects (cfg : Config) (fs : FS) :
    ∀ (subjects : List String) (s : String), s ∈ subjects →
      (fs.glob (gradPattern cfg s)).length = 1 →
      (fs.glob (focalPattern cfg s)).length = 1 →
      (pjoin (pjoin cfg.parentOutDir s) ("sbatch_" ++ s ++ ".script"),
        renderScript cfg s ((fs.glob (gradPattern cfg s)).headD "")
          ((fs.glob (focalPattern cfg s)).headD "") (pjoin cfg.parentOutDir s)) ∈
        writesOf (runSubjects cfg fs subjects) := by
  intro subjects
  induction subjects with
  | nil =>
    intro s hs
    cases hs
  | cons a rest ih =>
    intro s hs hg hf
    rw [runSubjects_cons, writesOf_append]
    rcases List.mem_cons.mp hs with h | h
    · subst h
      apply List.mem_append_left
      rw [processSubject_valid cfg fs s hg hf, writesOf_append]
      cases hns : cfg.noSubmit <;> simp [writesOf, List.filterMap]
    · exact List.mem_append_right _ (ih s h hg hf)

/-- Claim C3: when the no-submit flag is set, no `sbatch` submission occurs
anywhere in the run, while every subject with exactly one match per
required pattern still gets its batch script written. -/
theorem claim_c3 (cfg : Config) (fs : FS) (subjects : List String)
    (h : cfg.noSubmit = true) :
    submitsOf (runSubjects cfg fs subjects) = []
    ∧ ∀ s ∈ subjects, (fs.glob (gradPattern cfg s)).length = 1 →
        (fs.glob (focalPattern cfg s)).length = 1 →
        (pjoin (pjoin cfg.parentOutDir s) ("sbatch_" ++ s ++ ".script"),
          renderScript cfg s ((fs.glob (gradPattern cfg s)).headD "")
            ((fs.glob (focalPattern cfg s)).headD "") (pjoin cfg.parentOutDir s)) ∈
          writesOf (runSubjects cfg fs subjects) := by
  constructor
  · induction subjects with
    | nil => rfl
    | cons a rest ih =>
      rw [runSubjects_cons, submitsOf_append, ih,
        submitsOf_processSubject_nosubmit cfg fs a h]
      rfl
  · intro s hs hg hf
    exact wrote_mem_runSubjects cfg fs subjects s hs hg hf

/-- Witness for claim C3 at a concrete no-submit run. -/
theorem claim_c3_witness :
    submitsOf (runSubjects cfg1 fs0 ["S1"]) = []
    ∧ ∀ s ∈ ["S1"], (fs0.glob (gradPattern cfg1 s)).length = 1 →
        (fs0.glob (focalPattern cfg1 s)).length = 1 →
        (pjoin (pjoin cfg1.parentOutDir s) ("sbatch_" ++ s ++ ".script"),
          renderScript cfg1 s ((fs0.glob (gradPattern cfg1 s)).headD "")
            ((fs0.glob (focalPattern cfg1 s)).headD "") (pjoin cfg1.parentOutDir s)) ∈
          writesOf (runSubjects cfg1 fs0 ["S1"]) :=
  claim_c3 cfg1 fs0 ["S1"] (by decide)

theorem applyEvents_cons (st : Store) (e : Event) (es : List Event) :
    applyEvents st (e :: es) = applyEvents (applyEvent st e) es :=
  rfl

theorem lastWriteIn_cons (e : Event) (es : List Event) (p : String) :
    lastWriteIn (e :: es) p =
      match lastWriteIn es p with
      | some c => some c
      | none => writeAt e p :=
  rfl

theorem applyEvents_char (es : List Event) : ∀ (st : Store) (p : String),
    applyEvents st es p = orO (lastWriteIn es p) (st p) := by
  induction es with
  | nil =>
    intro st p
    rfl
  | cons e es ih =>
    intro st p
    rw [applyEvents_cons, ih (applyEvent st e) p, lastWriteIn_cons]
    cases h : lastWriteIn es p with
    | some c => simp [orO]
    | none =>
      simp only [orO]
      cases e with
      | wrote q c =>
        by_cases hpq : p = q
        · simp [applyEvent, writeAt, hpq, orO]
        · simp [applyEvent, writeAt, hpq, orO]
      | mkdir q => simp [applyEvent, writeAt, orO]
      | prompted s => simp [applyEvent, writeAt, orO]
      | submitted a b => simp [applyEvent, writeAt, orO]

/-- Claim C8: applying the run's event trace to a file store is
idempotent — replaying the identical run (same configuration, filesystem
and subject list) over the store left by the first run rewrites every
script path with byte-identical content and changes nothing, because each
write truncates and the trace is deterministic in its inputs. -/
theorem claim_c8 (cfg : Config) (fs : FS) (subjects : List String) (st : Store) :
    applyEvents (applyEvents st (runSubjects cfg fs subjects))
        (runSubjects cfg fs subjects) =
      applyEvents st (runSubjects cfg fs subjects) := by
  funext p
  rw [applyEvents_char, applyEvents_char]
  cases h : lastWriteIn (runSubjects cfg fs subjects) p with
  | some c => simp [orO]
  | none => simp [orO]

/-- Counterexample to claim C4: for the memory input `4.25` the embedded
memory string is `4.25G`, whose numeric part has two decimal places, not
exactly one. -/
theorem claim_c4_counterexample :
    memString (some ⟨425, 2⟩) = "4.25G"
    ∧ ¬ decimalPlaces "4.25" = 1 := by
  decide

theorem string_append_assoc (a b c : String) : a ++ b ++ c = a ++ (b ++ c) :=
  congrArg String.mk (List.append_assoc a.data b.data c.data)

/-- Claim C4 (amended): the memory string is Python's `str()` of the parsed
float suffixed with `G`; an integral input renders with exactly one decimal
place (`4` becomes `4.0G`), but a non-integral input keeps all its decimal
places (`4.25` becomes `4.25G`). -/
theorem claim_c4 :
    (∀ n : Nat, memString (some ⟨(n : Int), 0⟩) = toString n ++ ".0G")
    ∧ memString (some ⟨425, 2⟩) = "4.25G" := by
  constructor
  · intro n
    have hnn : ¬ ((n : Int) < 0) := by omega
    have hfs : pyFloatStr ⟨(n : Int), 0⟩ = toString n ++ ".0" := by
      show (if ((n : Int) < 0) then "-" else "") ++ toString ((n : Int)).natAbs ++ ".0" =
        toString n ++ ".0"
      rw [if_neg hnn]
      simp only [Int.natAbs_ofNat]
      rfl
    show pyFloatStr ⟨(n : Int), 0⟩ ++ "G" = toString n ++ ".0G"
    rw [hfs, string_append_assoc]
    rfl
  · decide

/-- Counterexample to claim C5: a first column whose sole token is `007`
is returned as the integer `7` by the reader, not as the string `007` —
pandas dtype inference coerces an all-integer column. -/
theorem claim_c5_counterexample :
    readFirstColumn ["007"] = [PyVal.int 7]
    ∧ ¬ readFirstColumn ["007"] = [PyVal.str "007"] := by
  constructor
  · decide
  · decide

/-- Claim C5 (amended): the reader returns the first-column tokens in file
order with duplicates preserved — it maps a single per-token value function
over the token list, so length and positions are preserved — but the
values undergo dtype inference: an all-integer column is returned as
integers, any other column as strings. -/
theorem claim_c5 (rows : List String) :
    (∃ f, readFirstColumn rows = (csvTokens rows).map f)
    ∧ (readFirstColumn rows).length = (csvTokens rows).length
    ∧ (¬ (!(csvTokens rows).isEmpty
          && (csvTokens rows).all (fun t => (pandasInt? t).isSome)) = true →
        readFirstColumn rows = (csvTokens rows).map PyVal.str) := by
  refine ⟨?_, ?_, ?_⟩
  · simp only [readFirstColumn]
    by_cases hc : (!(csvTokens rows).isEmpty
        && (csvTokens rows).all (fun t => (pandasInt? t).isSome)) = true
    · rw [if_pos hc]
      exact ⟨fun t => PyVal.int ((pandasInt? t).getD 0), rfl⟩
    · rw [if_neg hc]
      exact ⟨PyVal.str, rfl⟩
  · simp only [readFirstColumn]
    by_cases hc : (!(csvTokens rows).isEmpty
        && (csvTokens rows).all (fun t => (pandasInt? t).isSome)) = true
    · rw [if_pos hc, List.length_map]
    · rw [if_neg hc, List.length_map]
  · intro hc
    simp only [readFirstColumn]
    rw [if_neg hc]

/-- Witness for claim C5 at a concrete non-numeric column. -/
theorem claim_c5_witness :
    (∃ f, readFirstColumn ["a", "b", "a"] = (csvTokens ["a", "b", "a"]).map f)
    ∧ (readFirstColumn ["a", "b", "a"]).length = (csvTokens ["a", "b", "a"]).length
    ∧ readFirstColumn ["a", "b", "a"] = (csvTokens ["a", "b", "a"]).map PyVal.str :=
  ⟨(claim_c5 ["a", "b", "a"]).1, (claim_c5 ["a", "b", "a"]).2.1,
   (claim_c5 ["a", "b", "a"]).2.2 (by decide)⟩

/-- Claim C10: an omitted memory flag keeps the unconverted default string
`4`, so the script directive is `--mem=4G`, while an explicitly passed `4`
is parsed as a float and renders as `--mem=4.0G`; the default and an
explicitly passed equal value therefore render differently.  Every
generated script contains the `--mem=` directive built from the resolved
memory string. -/
theorem claim_c10 :
    memString none = "4G"
    ∧ memString (some ⟨4, 0⟩) = "4.0G"
    ∧ ¬ memString none = memString (some ⟨4, 0⟩)
    ∧ ∀ (cfg : Config) (subject g f outDir : String),
        ("#SBATCH --mem=" ++ cfg.mem ++ "\n") ∈ scriptLines cfg subject g f outDir := by
  refine ⟨rfl, by decide, by decide, ?_⟩
  intro cfg subject g f outDir
  cases he : cfg.email <;> simp [scriptLines, he]

end RunASHS
